import Mathlib

/-!
Shader-subroutine selection and input state of `myproject.cpp`.

A shallow embedding of the input handling and of the subroutine registry of
`src/source/MyProject/myproject.cpp`:

* the process-wide variables (`current_subroutine`, `shaders`, `keys`,
  `spinning`, `wireframe`) become the fields of `State`;
* `std::cout` is the list of lines written by `PrintCurrentShader`;
* `std::vector::operator[]` and the raw array `keys[1024]` are unchecked in
  C++: an access outside the container is undefined behaviour and is the
  `none` result of the embedded function;
* the driver introspection calls used by `SetupShader` are the fields of
  `Program`.

Machine integers are `Nat`/`Int` with the conversions of the source written
out (`GLuint` is 32 bit, `int` is 32 bit, `size_t` is 64 bit).
-/

namespace RTGP

/-! ## Constants of the windowing library (glfw3.h) -/

/-- Action code of a key release. -/
def GLFW_RELEASE : Int := 0
/-- Action code of a key press. -/
def GLFW_PRESS : Int := 1
/-- Action code of a key repeat. -/
def GLFW_REPEAT : Int := 2
/-- Key code of digit 1, the ASCII code of the character 1. -/
def GLFW_KEY_1 : Int := 49
/-- Key code of digit 9, the ASCII code of the character 9. -/
def GLFW_KEY_9 : Int := 57
/-- Key code of the letter L. -/
def GLFW_KEY_L : Int := 76
/-- Key code of the letter P. -/
def GLFW_KEY_P : Int := 80
/-- Key code of the escape key. -/
def GLFW_KEY_ESCAPE : Int := 256

/-! ## Integer conversions -/

/-- Conversion of an `int` expression to `GLuint` (value modulo 2^32). -/
def toGLuint (i : Int) : Nat := (i % 2 ^ 32).toNat

/-- Conversion of a `GLuint` to `int`, as in the call
`PrintCurrentShader(current_subroutine)`. -/
def toCInt (u : Nat) : Int :=
  if u % 2 ^ 32 < 2 ^ 31 then ((u % 2 ^ 32 : Nat) : Int)
  else ((u % 2 ^ 32 : Nat) : Int) - 2 ^ 32

/-- Conversion of an `int` subscript to `size_t`, as in `shaders[subroutine]`. -/
def toSizeT (i : Int) : Nat := (i % 2 ^ 64).toNat

/-! ## Program state -/

/-- Global variables of the program that the keyboard callback reads or writes,
together with the lines written to the console by `PrintCurrentShader`. -/
structure State where
  /-- The variable `GLuint current_subroutine`. -/
  current_subroutine : Nat
  /-- The variable `vector<std::string> shaders`. -/
  shaders : List String
  /-- The variable `bool keys[1024]`. -/
  keys : Fin 1024 → Bool
  /-- The variable `GLboolean spinning`, holding GL_TRUE or GL_FALSE. -/
  spinning : Bool
  /-- The variable `GLboolean wireframe`, holding GL_TRUE or GL_FALSE. -/
  wireframe : Bool
  /-- The close flag of the window, set by `glfwSetWindowShouldClose`. -/
  windowShouldClose : Bool
  /-- The lines written to `std::cout` by `PrintCurrentShader`, oldest first. -/
  cout : List String

/-- Values of the global variables at program start (lines 89-121): the
selection is initialised with the literal 1, the table is empty, every key is
released, the rotation is on and the wireframe mode is off. -/
def initState : State where
  current_subroutine := 1
  shaders := []
  keys := fun _ => false
  spinning := true
  wireframe := false
  windowShouldClose := false
  cout := []

/-! ## Subroutine registry -/

/-- One active subroutine uniform of the fragment stage as reported by the
driver: its name and the array `s` of compatible subroutine indices
(`numCompS` is the length of that array). -/
structure SubroutineUniform where
  /-- Name returned by `glGetActiveSubroutineUniformName`. -/
  uniformName : String
  /-- Array filled by `glGetActiveSubroutineUniformiv(.., GL_COMPATIBLE_SUBROUTINES, s)`. -/
  compatible : List Int

/-- Answers of the driver to the introspection queries of `SetupShader` for
one linked program: the active subroutine uniforms of the fragment stage
(`countActiveSU` is the length of the list) and, for every subroutine index,
the name that `glGetActiveSubroutineName` writes into the 256-character
buffer `name`. -/
structure Program where
  /-- Active subroutine uniforms, in index order. -/
  uniforms : List SubroutineUniform
  /-- Name written by `glGetActiveSubroutineName` for a subroutine index. -/
  subroutineName : Int → String

/-- Inner loop of `SetupShader` (lines 381-385), started at counter `j`: each
iteration reads the name of subroutine `s[j]` and pushes it to the back of
the table. -/
def compatibleLoop (subroutineName : Int → String) (s : List Int) (j : Nat)
    (shaders : List String) : List String :=
  if h : j < s.length then
    compatibleLoop subroutineName s (j + 1) (shaders ++ [subroutineName s[j]])
  else shaders
termination_by s.length - j

/-- Outer loop of `SetupShader` (lines 365-389), started at counter `i`: each
iteration runs the inner loop over the compatible subroutines of uniform `i`. -/
def uniformLoop (p : Program) (i : Nat) (shaders : List String) : List String :=
  if h : i < p.uniforms.length then
    uniformLoop p (i + 1)
      (compatibleLoop p.subroutineName p.uniforms[i].compatible 0 shaders)
  else shaders
termination_by p.uniforms.length - i

/-- Effect of `SetupShader(program)` on the table `shaders`; the report that
the function writes to the console is not part of the embedding. -/
def SetupShader (p : Program) (shaders : List String) : List String :=
  uniformLoop p 0 shaders

/-! ## Console output and keyboard callback -/

/-- Embedding of `PrintCurrentShader(int subroutine)` (lines 394-397): writes
one line naming `shaders[subroutine]`; the subscript is unchecked, so an index
outside the table has no defined result. -/
def PrintCurrentShader (s : State) (subroutine : Int) : Option State :=
  if h : toSizeT subroutine < s.shaders.length then
    some { s with
      cout := s.cout ++ ["Current shader subroutine: " ++ s.shaders[toSizeT subroutine]] }
  else none

/-- Position of an in-range key code in the array `keys`. -/
def keyIndex (key : Int) (h : 0 ≤ key ∧ key < 1024) : Fin 1024 :=
  ⟨key.toNat, by omega⟩

/-- Assignment `keys[key] = b` on the raw array of 1024 entries; a key code
outside the array has no defined result. -/
def storeKey (s : State) (key : Int) (b : Bool) : Option State :=
  if h : 0 ≤ key ∧ key < 1024 then
    some { s with keys := Function.update s.keys (keyIndex key h) b }
  else none

/-- Lines 407-408 of `key_callback`: escape pressed requests the close. -/
def escapeStep (s : State) (key action : Int) : State :=
  if key = GLFW_KEY_ESCAPE ∧ action = GLFW_PRESS then
    { s with windowShouldClose := true }
  else s

/-- Lines 411-412 of `key_callback`: P pressed toggles the rotation. -/
def spinStep (s : State) (key action : Int) : State :=
  if key = GLFW_KEY_P ∧ action = GLFW_PRESS then
    { s with spinning := !s.spinning }
  else s

/-- Lines 415-416 of `key_callback`: L pressed toggles the wireframe mode. -/
def wireframeStep (s : State) (key action : Int) : State :=
  if key = GLFW_KEY_L ∧ action = GLFW_PRESS then
    { s with wireframe := !s.wireframe }
  else s

/-- Lines 421-436 of `key_callback`: a pressed digit between 1 and 9 selects
the subroutine `key - 48 - 1` when that index is inside the table, and then
prints its name. -/
def digitStep (s : State) (key action : Int) : Option State :=
  if (key ≥ GLFW_KEY_1 ∧ key ≤ GLFW_KEY_9) ∧ action = GLFW_PRESS then
    let new_subroutine : Nat := toGLuint (key - 48 - 1)
    if new_subroutine < s.shaders.length then
      let s1 : State := { s with current_subroutine := new_subroutine }
      PrintCurrentShader s1 (toCInt s1.current_subroutine)
    else some s
  else some s

/-- Lines 441-444 of `key_callback`: the table of pressed keys records a press
and a release; any other action leaves it alone. -/
def keysStep (s : State) (key action : Int) : Option State :=
  if action = GLFW_PRESS then storeKey s key true
  else if action = GLFW_RELEASE then storeKey s key false
  else some s

/-- Embedding of `key_callback(window, key, scancode, action, mode)` (lines
402-445); the window handle only receives the close request, which is the
field `windowShouldClose`. -/
def key_callback (s : State) (key _scancode action _mode : Int) : Option State :=
  (digitStep (wireframeStep (spinStep (escapeStep s key action) key action) key action)
      key action).bind
    fun s4 => keysStep s4 key action

/-- Startup sequence of `main` (lines 204-209) for a linked program: the table
is filled by `SetupShader`, then the name of the current subroutine is
printed. -/
def startup (p : Program) : Option State :=
  let s : State := { initState with shaders := SetupShader p initState.shaders }
  PrintCurrentShader s (toCInt s.current_subroutine)

/-- Key code of the digit key `n`. -/
def digitKey (n : Nat) : Int := 48 + (n : Int)

/-! ## Event dispatch and per-frame lookup -/

/-- One keyboard event as the windowing library hands it to the registered
callback (line 179): key code, scancode, action and modifier bits. -/
structure KeyEvent where
  /-- Key code; the library passes -1 for a key it has no code for. -/
  key : Int
  /-- Platform scancode, not read by the callback. -/
  scancode : Int
  /-- Action code: release, press or repeat. -/
  action : Int
  /-- Modifier bits, not read by the callback. -/
  mode : Int

/-- Pending keyboard events dispatched by `glfwPollEvents` (line 236): the
callback runs once per event, in order, on the state left by the previous
one; the run has a defined result only while every call has one. -/
def runKeyEvents (s : State) : List KeyEvent → Option State
  | [] => some s
  | e :: es =>
    (key_callback s e.key e.scancode e.action e.mode).bind fun s1 => runKeyEvents s1 es

/-- Per-frame lookup `shaders[current_subroutine]` of the render loop (line
295): the name handed to `glGetSubroutineIndex`; the subscript is unchecked,
so an index outside the table has no defined result. -/
def frameLookup (s : State) : Option String :=
  if h : s.current_subroutine < s.shaders.length then
    some s.shaders[s.current_subroutine]
  else none

/-- A key event stores inside the array `keys`: its key code is in
[0, 1024), or its action is neither press nor release so nothing is stored. -/
def storesInsideKeys (e : KeyEvent) : Prop :=
  (0 ≤ e.key ∧ e.key < 1024) ∨ (e.action ≠ GLFW_PRESS ∧ e.action ≠ GLFW_RELEASE)

instance (e : KeyEvent) : Decidable (storesInsideKeys e) := by
  unfold storesInsideKeys
  infer_instance

/-- Three key events: digit 3 pressed, digit 7 pressed, digit 3 released. -/
def threeEvents : List KeyEvent :=
  [{ key := 51, scancode := 0, action := 1, mode := 0 },
   { key := 55, scancode := 0, action := 1, mode := 0 },
   { key := 51, scancode := 0, action := 0, mode := 0 }]

/-- A press of a key the windowing library has no code for: it is delivered
with the key code -1. -/
def unknownKeyPress : KeyEvent :=
  { key := -1, scancode := 0, action := 1, mode := 0 }

/-! ## Concrete inputs used to evaluate the embedding -/

/-- A table of four names (the four illumination models of the header
comment), as a state that is otherwise the initial one: no key is pressed and
nothing has been printed. -/
def fourTable : State :=
  { initState with shaders := ["Lambert", "Phong", "BlinnPhong", "GGX"] }

/-- A linked program with one subroutine uniform and four compatible
subroutines with the indices 0 to 3. -/
def fourProgram : Program where
  uniforms := [{ uniformName := "illumination", compatible := [0, 1, 2, 3] }]
  subroutineName := fun i =>
    if i = 0 then "Lambert" else if i = 1 then "Phong"
    else if i = 2 then "BlinnPhong" else "GGX"

/-- A linked program with two subroutine uniforms, of two and one compatible
subroutines. -/
def twoUniformProgram : Program where
  uniforms := [{ uniformName := "u0", compatible := [1, 0] },
               { uniformName := "u1", compatible := [2] }]
  subroutineName := fun i =>
    if i = 0 then "Lambert" else if i = 1 then "Phong" else "GGX"

/-- The concatenation that the registry is specified to produce: for every
uniform in order, the names of its compatible subroutines in order. -/
def discoveredNames (p : Program) : List String :=
  (p.uniforms.map fun u => u.compatible.map p.subroutineName).flatten

/-! ## Auxiliary facts -/

theorem digitKey_range (n : Nat) (hn : 1 ≤ n ∧ n ≤ 9) :
    0 ≤ digitKey n ∧ digitKey n < 1024 := by
  unfold digitKey; omega

theorem toGLuint_digitKey (n : Nat) (hn : 1 ≤ n ∧ n ≤ 9) :
    toGLuint (digitKey n - 48 - 1) = n - 1 := by
  unfold toGLuint digitKey; omega

theorem toSizeT_toCInt_small (u : Nat) (hu : u < 2 ^ 31) :
    toSizeT (toCInt u) = u := by
  unfold toSizeT toCInt
  have h1 : u % 2 ^ 32 = u := Nat.mod_eq_of_lt (by omega)
  rw [h1, if_pos hu]
  omega

theorem PrintCurrentShader_inRange (s : State) (u : Nat) (hu : u < 2 ^ 31)
    (h : u < s.shaders.length) :
    PrintCurrentShader s (toCInt u) =
      some { s with cout := s.cout ++ ["Current shader subroutine: " ++ s.shaders[u]] } := by
  unfold PrintCurrentShader
  have e : toSizeT (toCInt u) = u := toSizeT_toCInt_small u hu
  simp only [e, h, dite_true]

theorem digitStep_valid (s : State) (n : Nat) (hn : 1 ≤ n ∧ n ≤ 9)
    (h : n - 1 < s.shaders.length) :
    digitStep s (digitKey n) GLFW_PRESS =
      some { s with
        current_subroutine := n - 1
        cout := s.cout ++ ["Current shader subroutine: " ++ s.shaders[n - 1]] } := by
  have hk : (digitKey n ≥ GLFW_KEY_1 ∧ digitKey n ≤ GLFW_KEY_9) ∧ GLFW_PRESS = GLFW_PRESS := by
    unfold digitKey GLFW_KEY_1 GLFW_KEY_9; omega
  unfold digitStep
  rw [if_pos hk]
  simp only [toGLuint_digitKey n hn, if_pos h]
  have hsmall : n - 1 < 2 ^ 31 := by omega
  exact PrintCurrentShader_inRange { s with current_subroutine := n - 1 } (n - 1) hsmall h

theorem digitStep_invalid (s : State) (n : Nat) (hn : 1 ≤ n ∧ n ≤ 9)
    (h : s.shaders.length ≤ n - 1) :
    digitStep s (digitKey n) GLFW_PRESS = some s := by
  unfold digitStep
  simp only [toGLuint_digitKey n hn, if_neg (Nat.not_lt.mpr h)]
  simp

theorem toggles_digit (s : State) (n : Nat) (hn : 1 ≤ n ∧ n ≤ 9) (action : Int) :
    wireframeStep (spinStep (escapeStep s (digitKey n) action) (digitKey n) action)
      (digitKey n) action = s := by
  have h1 : digitKey n ≠ GLFW_KEY_ESCAPE := by unfold digitKey GLFW_KEY_ESCAPE; omega
  have h2 : digitKey n ≠ GLFW_KEY_P := by unfold digitKey GLFW_KEY_P; omega
  have h3 : digitKey n ≠ GLFW_KEY_L := by unfold digitKey GLFW_KEY_L; omega
  simp [wireframeStep, spinStep, escapeStep, h1, h2, h3]

theorem key_callback_digit_valid (s : State) (n : Nat) (sc md : Int)
    (hn : 1 ≤ n ∧ n ≤ 9) (h : n - 1 < s.shaders.length) :
    key_callback s (digitKey n) sc GLFW_PRESS md =
      some { s with
        current_subroutine := n - 1
        cout := s.cout ++ ["Current shader subroutine: " ++ s.shaders[n - 1]]
        keys := Function.update s.keys (keyIndex (digitKey n) (digitKey_range n hn)) true } := by
  unfold key_callback
  rw [toggles_digit s n hn, digitStep_valid s n hn h]
  simp [keysStep, storeKey, digitKey_range n hn]

theorem key_callback_digit_invalid (s : State) (n : Nat) (sc md : Int)
    (hn : 1 ≤ n ∧ n ≤ 9) (h : s.shaders.length ≤ n - 1) :
    key_callback s (digitKey n) sc GLFW_PRESS md =
      some { s with
        keys := Function.update s.keys (keyIndex (digitKey n) (digitKey_range n hn)) true } := by
  unfold key_callback
  rw [toggles_digit s n hn, digitStep_invalid s n hn h]
  simp [keysStep, storeKey, digitKey_range n hn]

theorem compatibleLoop_eq (name : Int → String) (s : List Int) :
    ∀ (k j : Nat) (shaders : List String), s.length - j = k →
      compatibleLoop name s j shaders = shaders ++ (s.drop j).map name := by
  intro k
  induction k with
  | zero =>
    intro j shaders hk
    have hj : ¬ j < s.length := by omega
    rw [compatibleLoop, dif_neg hj, List.drop_of_length_le (by omega)]
    simp
  | succ k ih =>
    intro j shaders hk
    have hj : j < s.length := by omega
    rw [compatibleLoop, dif_pos hj, ih (j + 1) _ (by omega),
      List.drop_eq_getElem_cons hj]
    simp only [List.map_cons, List.append_assoc, List.singleton_append]

theorem uniformLoop_eq (p : Program) :
    ∀ (k i : Nat) (shaders : List String), p.uniforms.length - i = k →
      uniformLoop p i shaders =
        shaders ++
          ((p.uniforms.drop i).map fun u => u.compatible.map p.subroutineName).flatten := by
  intro k
  induction k with
  | zero =>
    intro i shaders hk
    have hi : ¬ i < p.uniforms.length := by omega
    rw [uniformLoop, dif_neg hi, List.drop_of_length_le (by omega)]
    simp
  | succ k ih =>
    intro i shaders hk
    have hi : i < p.uniforms.length := by omega
    rw [uniformLoop, dif_pos hi, ih (i + 1) _ (by omega),
      compatibleLoop_eq _ _ _ 0 _ rfl, List.drop_eq_getElem_cons hi]
    simp only [List.map_cons, List.flatten_cons, List.append_assoc, List.drop_zero]

theorem SetupShader_eq (p : Program) (shaders : List String) :
    SetupShader p shaders = shaders ++ discoveredNames p := by
  unfold SetupShader discoveredNames
  rw [uniformLoop_eq p _ 0 shaders rfl]
  simp

theorem SetupShader_twoUniformProgram :
    SetupShader twoUniformProgram [] = ["Phong", "Lambert", "GGX"] := by
  rw [SetupShader_eq]
  decide

theorem digitStep_cases (s : State) (key action : Int) :
    digitStep s key action = some s ∨
    ∃ n : Nat, (1 ≤ n ∧ n ≤ 9) ∧ key = digitKey n ∧ action = GLFW_PRESS ∧
      ∃ h : n - 1 < s.shaders.length,
        digitStep s key action =
          some { s with
            current_subroutine := n - 1
            cout := s.cout ++ ["Current shader subroutine: " ++ s.shaders[n - 1]] } := by
  by_cases hc : (key ≥ GLFW_KEY_1 ∧ key ≤ GLFW_KEY_9) ∧ action = GLFW_PRESS
  · have hk : key = digitKey (key.toNat - 48) := by
      unfold GLFW_KEY_1 GLFW_KEY_9 at hc
      unfold digitKey
      omega
    have hn : 1 ≤ key.toNat - 48 ∧ key.toNat - 48 ≤ 9 := by
      unfold GLFW_KEY_1 GLFW_KEY_9 at hc
      omega
    by_cases hlt : key.toNat - 48 - 1 < s.shaders.length
    · right
      refine ⟨key.toNat - 48, hn, hk, hc.2, hlt, ?_⟩
      rw [hc.2]
      conv_lhs => rw [hk]
      exact digitStep_valid s _ hn hlt
    · left
      rw [hc.2]
      conv_lhs => rw [hk]
      exact digitStep_invalid s _ hn (Nat.le_of_not_lt hlt)
  · left
    unfold digitStep
    rw [if_neg hc]

theorem toggles_keys (s : State) (key action : Int) :
    (wireframeStep (spinStep (escapeStep s key action) key action) key action).keys
      = s.keys := by
  unfold wireframeStep spinStep escapeStep
  split <;> split <;> split <;> rfl

theorem digitStep_keys (s : State) (key action : Int) :
    ∃ s', digitStep s key action = some s' ∧ s'.keys = s.keys := by
  rcases digitStep_cases s key action with h | ⟨n, _, _, _, _, h⟩
  · exact ⟨s, h, rfl⟩
  · exact ⟨_, h, rfl⟩

theorem key_callback_P (s : State) (sc md : Int) :
    key_callback s GLFW_KEY_P sc GLFW_PRESS md =
      some { s with
        spinning := !s.spinning
        keys := Function.update s.keys (keyIndex GLFW_KEY_P (by decide)) true } := by
  simp [key_callback, escapeStep, spinStep, wireframeStep, digitStep, keysStep, storeKey,
    GLFW_KEY_P, GLFW_KEY_L, GLFW_KEY_ESCAPE, GLFW_KEY_1, GLFW_KEY_9, GLFW_PRESS]

theorem key_callback_L (s : State) (sc md : Int) :
    key_callback s GLFW_KEY_L sc GLFW_PRESS md =
      some { s with
        wireframe := !s.wireframe
        keys := Function.update s.keys (keyIndex GLFW_KEY_L (by decide)) true } := by
  simp [key_callback, escapeStep, spinStep, wireframeStep, digitStep, keysStep, storeKey,
    GLFW_KEY_P, GLFW_KEY_L, GLFW_KEY_ESCAPE, GLFW_KEY_1, GLFW_KEY_9, GLFW_PRESS]

/-! ## Numeric selection (C1, C2) -/

/-- C1: for every state, hence every table `shaders`, and every `n` in [1,9],
`key_callback` handles a press of digit key `n` (key code 48 + n) and returns a
state in which the selection `current_subroutine` has been set to `n - 1` when
`n - 1 < shaders.length`, and still has its previous value when
`n - 1 ≥ shaders.length`; the assignment is performed exactly in the first
case. -/
theorem C1_digit_press_selects_iff_in_range (s : State) (n : Nat) (sc md : Int)
    (hn : 1 ≤ n ∧ n ≤ 9) :
    ∃ s', key_callback s (digitKey n) sc GLFW_PRESS md = some s' ∧
      (n - 1 < s.shaders.length → s'.current_subroutine = n - 1) ∧
      (s.shaders.length ≤ n - 1 → s'.current_subroutine = s.current_subroutine) := by
  by_cases h : n - 1 < s.shaders.length
  · refine ⟨_, key_callback_digit_valid s n sc md hn h, fun _ => rfl, fun h2 => ?_⟩
    omega
  · have h2 : s.shaders.length ≤ n - 1 := Nat.le_of_not_lt h
    exact ⟨_, key_callback_digit_invalid s n sc md hn h2, fun h3 => absurd h3 h, fun _ => rfl⟩

/-- Instance of C1 at the table of four names and digit 3. -/
theorem C1_digit_press_selects_iff_in_range_witness :
    (1 ≤ 3 ∧ 3 ≤ 9) ∧
    ∃ s', key_callback fourTable (digitKey 3) 0 GLFW_PRESS 0 = some s' ∧
      (3 - 1 < fourTable.shaders.length → s'.current_subroutine = 3 - 1) ∧
      (fourTable.shaders.length ≤ 3 - 1 →
        s'.current_subroutine = fourTable.current_subroutine) :=
  ⟨by decide, C1_digit_press_selects_iff_in_range fourTable 3 0 0 (by decide)⟩

/-- C2 as stated fails: with the table of four names and no key pressed, a
press of digit 7 (index 6, outside the table) prints nothing but does change
the state, because the entry 55 of `keys` becomes true; the state after the
event is not the state before it. -/
theorem C2_ignored_digit_changes_keys :
    key_callback fourTable (digitKey 7) 0 GLFW_PRESS 0 ≠ some fourTable ∧
    ∃ s', key_callback fourTable (digitKey 7) 0 GLFW_PRESS 0 = some s' ∧
      s'.cout = fourTable.cout ∧
      fourTable.keys ⟨55, by decide⟩ = false ∧ s'.keys ⟨55, by decide⟩ = true := by
  have hn : 1 ≤ 7 ∧ 7 ≤ 9 := by decide
  have hlen : fourTable.shaders.length ≤ 7 - 1 := by decide
  have hkey := key_callback_digit_invalid fourTable 7 0 0 hn hlen
  have hidx : keyIndex (digitKey 7) (digitKey_range 7 hn) = ⟨55, by decide⟩ := by
    apply Fin.ext; rfl
  have hbefore : fourTable.keys ⟨55, by decide⟩ = false := rfl
  refine ⟨?_, _, hkey, rfl, hbefore, ?_⟩
  · rw [hkey]
    intro heq
    have hk := congrArg (fun o : Option State => o.map fun st => st.keys ⟨55, by decide⟩) heq
    simp only [Option.map_some', hidx, Function.update_same, hbefore] at hk
    exact absurd hk (by decide)
  · show Function.update fourTable.keys
      (keyIndex (digitKey 7) (digitKey_range 7 hn)) true ⟨55, by decide⟩ = true
    rw [hidx]
    simp

/-- C2, amended: for every state and every `n` in [1,9], a press of digit `n`
with `n - 1 < shaders.length` sets the selection to `n - 1`, appends exactly
one line, naming `shaders[n - 1]`, to the console and records the key in
`keys`; with `n - 1 ≥ shaders.length` it appends no line and changes nothing
but the entry of the key in `keys`, which becomes true. For a table of
length 4, digit 3 makes the selection 2 and prints the name `shaders[2]`, and
digit 7 leaves the selection and the console unchanged. -/
theorem C2_digit_press_diagnostic (s : State) (n : Nat) (sc md : Int)
    (hn : 1 ≤ n ∧ n ≤ 9) :
    (∀ h : n - 1 < s.shaders.length,
      key_callback s (digitKey n) sc GLFW_PRESS md =
        some { s with
          current_subroutine := n - 1
          cout := s.cout ++ ["Current shader subroutine: " ++ s.shaders[n - 1]]
          keys := Function.update s.keys
            (keyIndex (digitKey n) (digitKey_range n hn)) true }) ∧
    (s.shaders.length ≤ n - 1 →
      key_callback s (digitKey n) sc GLFW_PRESS md =
        some { s with
          keys := Function.update s.keys
            (keyIndex (digitKey n) (digitKey_range n hn)) true }) ∧
    (∀ h4 : s.shaders.length = 4,
      (∃ s3, key_callback s (digitKey 3) sc GLFW_PRESS md = some s3 ∧
        s3.current_subroutine = 2 ∧
        s3.cout = s.cout ++ ["Current shader subroutine: " ++ s.shaders[2]]) ∧
      (∃ s7, key_callback s (digitKey 7) sc GLFW_PRESS md = some s7 ∧
        s7.current_subroutine = s.current_subroutine ∧ s7.cout = s.cout)) := by
  refine ⟨fun h => key_callback_digit_valid s n sc md hn h,
    fun h => key_callback_digit_invalid s n sc md hn h, fun h4 => ⟨?_, ?_⟩⟩
  · have h3 : 3 - 1 < s.shaders.length := by omega
    exact ⟨_, key_callback_digit_valid s 3 sc md (by decide) h3, rfl, rfl⟩
  · have h7 : s.shaders.length ≤ 7 - 1 := by omega
    exact ⟨_, key_callback_digit_invalid s 7 sc md (by decide) h7, rfl, rfl⟩

/-- Instance of the amended C2 at the table of four names and digit 3: the
selection becomes 2 and the only line printed names the third entry. -/
theorem C2_digit_press_diagnostic_witness :
    (1 ≤ 3 ∧ 3 ≤ 9) ∧
    ∃ s', key_callback fourTable (digitKey 3) 0 GLFW_PRESS 0 = some s' ∧
      s'.current_subroutine = 2 ∧
      s'.cout = ["Current shader subroutine: BlinnPhong"] :=
  ⟨by decide, _,
    (C2_digit_press_diagnostic fourTable 3 0 0 (by decide)).1 (by decide), rfl, by decide⟩

/-! ## Initial selection (C3) -/

/-- C3, evaluated on the code: the initial value of `current_subroutine` is 1,
not 0, and for the program with the compatible subroutines Lambert, Phong,
BlinnPhong, GGX the table starts with Lambert while the startup call
`PrintCurrentShader(current_subroutine)` prints Phong, the second entry. -/
theorem C3_initial_selection_is_one :
    initState.current_subroutine = 1 ∧
    (SetupShader fourProgram initState.shaders)[0]? = some "Lambert" ∧
    (startup fourProgram).map (fun s => s.cout) =
      some ["Current shader subroutine: Phong"] := by
  have htable : SetupShader fourProgram initState.shaders =
      ["Lambert", "Phong", "BlinnPhong", "GGX"] := by
    rw [SetupShader_eq]
    decide
  refine ⟨rfl, ?_, ?_⟩
  · rw [htable]
    rfl
  · unfold startup
    simp only [htable]
    rw [show initState.current_subroutine = 1 from rfl]
    rw [PrintCurrentShader_inRange _ 1 (by decide) (by decide)]
    rfl

/-! ## Subroutine registry (C4) -/

/-- C4: for every program description, `SetupShader` run on the empty initial
table leaves `shaders` equal to the concatenation, in uniform order and within
each uniform in the order of the array of compatible subroutines, of the names
of the compatible subroutines (on any table it appends that concatenation);
the length of the result is the sum of the numbers of compatible subroutines
of the uniforms, and with no active subroutine uniform the table is empty. -/
theorem C4_SetupShader_table (p : Program) :
    SetupShader p initState.shaders =
      (p.uniforms.map fun u => u.compatible.map p.subroutineName).flatten ∧
    (∀ t : List String, SetupShader p t =
      t ++ (p.uniforms.map fun u => u.compatible.map p.subroutineName).flatten) ∧
    (SetupShader p initState.shaders).length =
      (p.uniforms.map fun u => u.compatible.length).sum ∧
    SetupShader { p with uniforms := [] } initState.shaders = [] := by
  have hinit : initState.shaders = [] := rfl
  refine ⟨?_, fun t => SetupShader_eq p t, ?_, ?_⟩
  · rw [SetupShader_eq, hinit]
    rfl
  · rw [SetupShader_eq, hinit]
    simp [discoveredNames, List.length_flatten, Function.comp_def]
  · rw [SetupShader_eq, hinit]
    rfl

/-! ## Toggles (C6) -/

/-- C6: for every state, a press of key P handled by `key_callback` flips
`spinning` and a second press restores its original value; likewise a press
of key L flips `wireframe` and a second press restores it. -/
theorem C6_toggle_twice_restores (s : State) (sc md : Int) :
    (∃ s1 s2, key_callback s GLFW_KEY_P sc GLFW_PRESS md = some s1 ∧
      key_callback s1 GLFW_KEY_P sc GLFW_PRESS md = some s2 ∧
      s1.spinning = !s.spinning ∧ s2.spinning = s.spinning) ∧
    (∃ s1 s2, key_callback s GLFW_KEY_L sc GLFW_PRESS md = some s1 ∧
      key_callback s1 GLFW_KEY_L sc GLFW_PRESS md = some s2 ∧
      s1.wireframe = !s.wireframe ∧ s2.wireframe = s.wireframe) := by
  constructor
  · refine ⟨_, _, key_callback_P s sc md, key_callback_P _ sc md, rfl, ?_⟩
    simp
  · refine ⟨_, _, key_callback_L s sc md, key_callback_L _ sc md, rfl, ?_⟩
    simp

/-! ## Repeated selection (C7) -/

/-- C7: for every state and every digit `n` in [1,9] with
`n - 1 < shaders.length`, two presses of digit `n` in a row both succeed, the
selection after the second press equals the selection after the first press,
which is `n - 1`, and each of the two presses appends exactly one line, naming
`shaders[n - 1]`, to the console. -/
theorem C7_same_digit_twice (s : State) (n : Nat) (sc md : Int)
    (hn : 1 ≤ n ∧ n ≤ 9) (h : n - 1 < s.shaders.length) :
    ∃ s1 s2, key_callback s (digitKey n) sc GLFW_PRESS md = some s1 ∧
      key_callback s1 (digitKey n) sc GLFW_PRESS md = some s2 ∧
      s1.current_subroutine = n - 1 ∧
      s2.current_subroutine = s1.current_subroutine ∧
      s1.cout = s.cout ++ ["Current shader subroutine: " ++ s.shaders[n - 1]] ∧
      s2.cout = s1.cout ++ ["Current shader subroutine: " ++ s.shaders[n - 1]] := by
  have h1 := key_callback_digit_valid s n sc md hn h
  have h2 := key_callback_digit_valid
    { s with
      current_subroutine := n - 1
      cout := s.cout ++ ["Current shader subroutine: " ++ s.shaders[n - 1]]
      keys := Function.update s.keys (keyIndex (digitKey n) (digitKey_range n hn)) true }
    n sc md hn h
  exact ⟨_, _, h1, h2, rfl, rfl, rfl, rfl⟩

/-- Instance of C7 at the table of four names and digit 4. -/
theorem C7_same_digit_twice_witness :
    (1 ≤ 4 ∧ 4 ≤ 9) ∧ 4 - 1 < fourTable.shaders.length ∧
    ∃ s1 s2, key_callback fourTable (digitKey 4) 0 GLFW_PRESS 0 = some s1 ∧
      key_callback s1 (digitKey 4) 0 GLFW_PRESS 0 = some s2 ∧
      s1.current_subroutine = 4 - 1 ∧
      s2.current_subroutine = s1.current_subroutine ∧
      s1.cout = fourTable.cout ++ ["Current shader subroutine: " ++ fourTable.shaders[4 - 1]] ∧
      s2.cout = s1.cout ++ ["Current shader subroutine: " ++ fourTable.shaders[4 - 1]] :=
  ⟨by decide, by decide, C7_same_digit_twice fourTable 4 0 0 (by decide) (by decide)⟩

/-! ## Table of pressed keys (C10) -/

/-- C10: for every state and every key event whose key code `k` is in
[0, 1024), `key_callback` returns a state in which `keys[k]` is true when the
action is a press, false when the action is a release and unchanged for any
other action, and in which every other entry of `keys` is unchanged. -/
theorem C10_keys_table_update (s : State) (k sc action md : Int)
    (hk : 0 ≤ k ∧ k < 1024) :
    ∃ s', key_callback s k sc action md = some s' ∧
      (action = GLFW_PRESS → s'.keys (keyIndex k hk) = true) ∧
      (action = GLFW_RELEASE → s'.keys (keyIndex k hk) = false) ∧
      (action ≠ GLFW_PRESS → action ≠ GLFW_RELEASE →
        s'.keys (keyIndex k hk) = s.keys (keyIndex k hk)) ∧
      (∀ j : Fin 1024, j ≠ keyIndex k hk → s'.keys j = s.keys j) := by
  obtain ⟨s4, h4, hkeys⟩ := digitStep_keys
    (wireframeStep (spinStep (escapeStep s k action) k action) k action) k action
  rw [toggles_keys] at hkeys
  have hcb : key_callback s k sc action md = keysStep s4 k action := by
    unfold key_callback
    rw [h4]
    rfl
  rw [hcb]
  by_cases hp : action = GLFW_PRESS
  · refine ⟨{ s4 with keys := Function.update s4.keys (keyIndex k hk) true }, ?_, ?_, ?_, ?_, ?_⟩
    · simp [keysStep, storeKey, hp, hk]
    · intro _; simp
    · intro hr; rw [hp] at hr; exact absurd hr (by decide)
    · intro hnp; exact absurd hp hnp
    · intro j hj; simp [Function.update_noteq hj, hkeys]
  · by_cases hr : action = GLFW_RELEASE
    · refine ⟨{ s4 with keys := Function.update s4.keys (keyIndex k hk) false }, ?_, ?_, ?_, ?_, ?_⟩
      · have hne : GLFW_RELEASE ≠ GLFW_PRESS := by decide
        simp [keysStep, storeKey, hr, hne, hk]
      · intro h; exact absurd h hp
      · intro _; simp
      · intro _ hnr; exact absurd hr hnr
      · intro j hj; simp [Function.update_noteq hj, hkeys]
    · refine ⟨s4, ?_, ?_, ?_, ?_, ?_⟩
      · simp [keysStep, hp, hr]
      · intro h; exact absurd h hp
      · intro h; exact absurd h hr
      · intro _ _; rw [hkeys]
      · intro j _; rw [hkeys]

/-- Instance of C10 at the initial state and a press of key W (code 87). -/
theorem C10_keys_table_update_witness :
    (0 ≤ (87 : Int) ∧ (87 : Int) < 1024) ∧
    ∃ s', key_callback initState 87 0 GLFW_PRESS 0 = some s' ∧
      s'.keys ⟨87, by decide⟩ = true ∧
      (∀ j : Fin 1024, j ≠ ⟨87, by decide⟩ → s'.keys j = initState.keys j) := by
  obtain ⟨s', h1, h2, _, _, h5⟩ :=
    C10_keys_table_update initState 87 0 GLFW_PRESS 0 (by decide)
  exact ⟨by decide, s', h1, h2 rfl, h5⟩

/-! ## Auxiliary facts on the selection across key events -/

theorem toggles_selection (s : State) (key action : Int) :
    (wireframeStep (spinStep (escapeStep s key action) key action) key action).current_subroutine
        = s.current_subroutine ∧
    (wireframeStep (spinStep (escapeStep s key action) key action) key action).shaders
        = s.shaders := by
  unfold wireframeStep spinStep escapeStep
  constructor <;> (split <;> split <;> split <;> rfl)

theorem keysStep_selection (s s' : State) (key action : Int)
    (h : keysStep s key action = some s') :
    s'.current_subroutine = s.current_subroutine ∧ s'.shaders = s.shaders := by
  unfold keysStep storeKey at h
  split at h
  · split at h
    · cases h; exact ⟨rfl, rfl⟩
    · cases h
  · split at h
    · split at h
      · cases h; exact ⟨rfl, rfl⟩
      · cases h
    · cases h; exact ⟨rfl, rfl⟩

theorem keysStep_eq_none_iff (s : State) (key action : Int) :
    keysStep s key action = none ↔
      ¬ (0 ≤ key ∧ key < 1024) ∧ (action = GLFW_PRESS ∨ action = GLFW_RELEASE) := by
  unfold keysStep storeKey
  by_cases hp : action = GLFW_PRESS
  · by_cases hk : 0 ≤ key ∧ key < 1024
    · simp [hp, hk]
    · simp [hp, hk]
  · by_cases hr : action = GLFW_RELEASE
    · have hne : GLFW_RELEASE ≠ GLFW_PRESS := by decide
      by_cases hk : 0 ≤ key ∧ key < 1024
      · simp [hr, hne, hk]
      · simp [hr, hne, hk]
    · simp [hp, hr]

theorem key_callback_eq_keysStep (s : State) (key sc action md : Int) :
    ∃ s4, digitStep (wireframeStep (spinStep (escapeStep s key action) key action)
        key action) key action = some s4 ∧
      key_callback s key sc action md = keysStep s4 key action := by
  obtain ⟨s4, h4, _⟩ := digitStep_keys
    (wireframeStep (spinStep (escapeStep s key action) key action) key action) key action
  refine ⟨s4, h4, ?_⟩
  unfold key_callback
  rw [h4]
  rfl

theorem key_callback_eq_none_iff (s : State) (key sc action md : Int) :
    key_callback s key sc action md = none ↔
      ¬ (0 ≤ key ∧ key < 1024) ∧ (action = GLFW_PRESS ∨ action = GLFW_RELEASE) := by
  obtain ⟨s4, _, hcb⟩ := key_callback_eq_keysStep s key sc action md
  rw [hcb]
  exact keysStep_eq_none_iff s4 key action

theorem key_callback_selection (s s' : State) (key sc action md : Int)
    (h : key_callback s key sc action md = some s') :
    s'.shaders = s.shaders ∧
    (s'.current_subroutine = s.current_subroutine ∨
      ∃ n : Nat, (1 ≤ n ∧ n ≤ 9) ∧ key = digitKey n ∧ action = GLFW_PRESS ∧
        s'.current_subroutine = n - 1 ∧ n - 1 < s.shaders.length) := by
  obtain ⟨s4, h4, hcb⟩ := key_callback_eq_keysStep s key sc action md
  rw [hcb] at h
  obtain ⟨hsel, hsh⟩ := keysStep_selection s4 s' key action h
  obtain ⟨htsel, htsh⟩ := toggles_selection s key action
  rcases digitStep_cases
    (wireframeStep (spinStep (escapeStep s key action) key action) key action) key action
    with hd | ⟨n, hn, hkey, hact, hlt, hd⟩
  · rw [hd] at h4
    cases h4
    exact ⟨hsh.trans htsh, Or.inl (hsel.trans htsel)⟩
  · rw [hd] at h4
    cases h4
    refine ⟨hsh.trans htsh, Or.inr ⟨n, hn, hkey, hact, hsel, ?_⟩⟩
    rw [← htsh]
    exact hlt

theorem key_callback_valid (s s' : State) (key sc action md : Int)
    (h : key_callback s key sc action md = some s')
    (hv : s.current_subroutine < s.shaders.length) :
    s'.current_subroutine < s'.shaders.length := by
  obtain ⟨hsh, hsel⟩ := key_callback_selection s s' key sc action md h
  rw [hsh]
  rcases hsel with hsame | ⟨n, _, _, _, hnew, hlt⟩
  · rw [hsame]; exact hv
  · rw [hnew]; exact hlt

theorem key_callback_defined (s : State) (e : KeyEvent) (h : storesInsideKeys e) :
    ∃ s', key_callback s e.key e.scancode e.action e.mode = some s' := by
  cases hcb : key_callback s e.key e.scancode e.action e.mode with
  | some s' => exact ⟨s', rfl⟩
  | none =>
    have hnone := (key_callback_eq_none_iff s e.key e.scancode e.action e.mode).mp hcb
    unfold storesInsideKeys at h
    rcases h with hk | ⟨hp, hr⟩
    · exact absurd hk hnone.1
    · rcases hnone.2 with h1 | h1
      · exact absurd h1 hp
      · exact absurd h1 hr

theorem runKeyEvents_invariant (events : List KeyEvent) :
    ∀ s s' : State, runKeyEvents s events = some s' →
      s.current_subroutine < s.shaders.length →
      s'.shaders = s.shaders ∧ s'.current_subroutine < s'.shaders.length := by
  induction events with
  | nil =>
    intro s s' h hv
    simp only [runKeyEvents] at h
    cases h
    exact ⟨rfl, hv⟩
  | cons e es ih =>
    intro s s' h hv
    simp only [runKeyEvents] at h
    cases hcb : key_callback s e.key e.scancode e.action e.mode with
    | none => rw [hcb] at h; cases h
    | some s1 =>
      rw [hcb] at h
      have hsh := (key_callback_selection s s1 e.key e.scancode e.action e.mode hcb).1
      have hv1 := key_callback_valid s s1 e.key e.scancode e.action e.mode hcb hv
      obtain ⟨hsh', hv'⟩ := ih s1 s' h hv1
      exact ⟨hsh'.trans hsh, hv'⟩

theorem runKeyEvents_defined (events : List KeyEvent) :
    (∀ e ∈ events, storesInsideKeys e) → ∀ s : State, ∃ s', runKeyEvents s events = some s' := by
  induction events with
  | nil =>
    intro _ s
    exact ⟨s, rfl⟩
  | cons e es ih =>
    intro hall s
    obtain ⟨s1, h1⟩ := key_callback_defined s e (hall e (List.mem_cons_self e es))
    obtain ⟨s', h'⟩ := ih (fun x hx => hall x (List.mem_cons_of_mem e hx)) s1
    refine ⟨s', ?_⟩
    simp only [runKeyEvents]
    rw [h1]
    exact h'

theorem startup_defined (p : Program)
    (h2 : 2 ≤ (SetupShader p initState.shaders).length) :
    ∃ s0, startup p = some s0 ∧ s0.shaders = SetupShader p initState.shaders ∧
      s0.current_subroutine = 1 := by
  have h1 : 1 < (SetupShader p initState.shaders).length := by omega
  refine ⟨_, PrintCurrentShader_inRange
    { initState with shaders := SetupShader p initState.shaders } 1 (by decide) h1, rfl, rfl⟩

theorem fourProgram_table :
    SetupShader fourProgram initState.shaders = ["Lambert", "Phong", "BlinnPhong", "GGX"] := by
  rw [SetupShader_eq]
  decide

/-! ## Selection is changed only by a validated digit (C11) -/

end RTGP
